import Mathlib

set_option maxRecDepth 10000

namespace CairoNative

/-- Memory layout: a `(size, align)` pair, mirroring Rust `std::alloc::Layout`
as used by `src/types.rs` (sizes and alignments are natural numbers; the
overflow checks of the source cannot fire in the unbounded model). -/
structure Layout where
  size : Nat
  align : Nat
deriving DecidableEq, Repr

/-- Round `n` up to the next multiple of `a` (Rust layout padding arithmetic). -/
def roundUp (n a : Nat) : Nat := (n + a - 1) / a * a

/-- Rust `Layout::extend`: place `next` after `self` with padding; returns the
combined layout and the offset of `next`. -/
def Layout.extend (l next : Layout) : Layout × Nat :=
  let offset := roundUp l.size next.align
  (⟨offset + next.size, max l.align next.align⟩, offset)

/-- Rust `Layout::pad_to_align`: round the size up to a multiple of the alignment. -/
def Layout.pad_to_align (l : Layout) : Layout :=
  ⟨roundUp l.size l.align, l.align⟩

/-- Fuelled helper for `bitLength`; structural on the fuel so that the kernel
can evaluate it. -/
def bitLengthAux : Nat → Nat → Nat
  | 0, _ => 0
  | _ + 1, 0 => 0
  | fuel + 1, n + 1 => bitLengthAux fuel ((n + 1) / 2) + 1

/-- Number of binary digits of `n` (`0 ↦ 0`, `1 ↦ 1`, `2,3 ↦ 2`, …): the
"minimum bits to represent `n` as an unsigned integer" of the spec, and Rust
`BigUint::bits`. -/
def bitLength (n : Nat) : Nat := bitLengthAux n n

/-- Rust `usize::next_power_of_two`: least power of two that is `≥ n`
(with `0 ↦ 1`). -/
def nextPowerOfTwo (n : Nat) : Nat :=
  if n ≤ 1 then 1 else 2 ^ bitLength (n - 1)

/-- The tag width (in bits) of an enum with `k` variants, from the source
expression `variants.len().next_power_of_two().trailing_zeros()`: for the
power of two produced by `next_power_of_two` the trailing-zero count is its
exact logarithm, i.e. its bit length minus one. -/
def enumTagBits (k : Nat) : Nat := bitLength (nextPowerOfTwo k) - 1

/-- Modelled from the spec: `get_integer_layout` lives in `src/utils.rs`,
which is not part of the sources. Spec evidence used: widths up to 8/16/32/64/128
bits get the layout of the corresponding machine integer (counters are `u64`
with layout `(8,8)`, `i32` fields are `(4,4)`, a 1-bit enum tag is widened to one
byte, §3/§8); a 252-bit `felt252` is "padded to 256" with layout `(32,32)` (§8 S5),
so wider-than-128 widths round their byte count up to the next power of two,
which is also the alignment; width 0 (zero-variant enum tag) is zero-sized,
making the zero-variant enum a ZST (§8.9). -/
def get_integer_layout (width : Nat) : Layout :=
  if width = 0 then ⟨0, 1⟩
  else if width ≤ 8 then ⟨1, 1⟩
  else if width ≤ 16 then ⟨2, 2⟩
  else if width ≤ 32 then ⟨4, 4⟩
  else if width ≤ 64 then ⟨8, 8⟩
  else if width ≤ 128 then ⟨16, 16⟩
  else
    let bytes := nextPowerOfTwo ((width + 7) / 8)
    ⟨bytes, bytes⟩

/-- Modelled from the spec: `layout_repeat` lives in `src/utils.rs`, not in the
sources. Spec §3/§4.A: `repeat(L, n)` extends `L` with itself `n − 1` times,
and `repeat(L, 0)` is the zero-size/align-1 layout. -/
def layout_repeat (l : Layout) : Nat → Layout
  | 0 => ⟨0, 1⟩
  | 1 => l
  | n + 2 => ((layout_repeat l (n + 1)).extend l).1

/-- The layout of a pointer on the 64-bit targets the spec assumes
(invariant 1: pointer size/alignment `8/8`). -/
def ptrLayout : Layout := ⟨8, 8⟩

/-- Modelled from the spec: `PRIME` lives in `src/utils.rs`, not in the sources.
Spec §3: the Cairo prime `P = 2²⁵¹ + 17·2¹⁹² + 1`. -/
def PRIME : Nat := 2 ^ 251 + 17 * 2 ^ 192 + 1

/-- A half-open integer value range with exclusive upper bound
(`cairo_lang_sierra::extensions::utils::Range`). -/
structure Range where
  lower : Int
  upper : Int
deriving DecidableEq, Repr

/-- Modelled from the spec: `RangeExt::offset_bit_width` lives in
`src/utils.rs`, not in the sources. Spec §4.D: "minimum bits to represent
`upper - lower` as an unsigned integer". -/
def Range.offset_bit_width (r : Range) : Nat := bitLength (r.upper - r.lower).toNat

mutual

/-- The Starknet sub-variants of `CoreTypeConcrete` that `src/types.rs`
distinguishes (`cairo_lang_sierra::extensions::starknet::StarknetTypeConcrete`). -/
inductive StarknetType where
  | ClassHash
  | ContractAddress
  | StorageBaseAddress
  | StorageAddress
  | System
  | Secp256Point
  | Sha256StateHandle

/-- The circuit sub-variants modelled here. Modelled from the spec: the
`circuit` type module is not part of the sources; the spec names only the
`AddMod`/`MulMod` builtin variants (§4.D `is_builtin`), which behave as the
other one-word builtin counters. -/
inductive CircuitType where
  | AddMod
  | MulMod

/-- Sierra concrete type descriptors as matched by `src/types.rs`
(`cairo_lang_sierra::extensions::core::CoreTypeConcrete`). Because a valid
program registry is acyclic (spec invariant 5) and every registry lookup in the
source follows a child type id, the registry is embedded by inlining each
child descriptor, so a type is a finite tree and `registry.get_type` becomes
direct subterm access. Member/variant lists use the companion mutual list type
`CoreTypeList` so that all recursion stays structural. The source constructor
`Uninitialized` is named `Uninit` here. -/
inductive CoreType where
  | Array (ty : CoreType)
  | Coupon
  | Bitwise
  | Box (ty : CoreType)
  | Circuit (c : CircuitType)
  | Const (inner_ty : CoreType)
  | EcOp
  | EcPoint
  | EcState
  | Felt252
  | GasBuiltin
  | BuiltinCosts
  | Uint8
  | Uint16
  | Uint32
  | Uint64
  | Uint128
  | Uint128MulGuarantee
  | Sint8
  | Sint16
  | Sint32
  | Sint64
  | Sint128
  | NonZero (ty : CoreType)
  | Nullable (ty : CoreType)
  | RangeCheck
  | RangeCheck96
  | Uninit (ty : CoreType)
  | Enum (variants : CoreTypeList)
  | Struct (members : CoreTypeList)
  | Felt252Dict (ty : CoreType)
  | Felt252DictEntry (ty : CoreType)
  | SquashedFelt252Dict (ty : CoreType)
  | Pedersen
  | Poseidon
  | Span (ty : CoreType)
  | Starknet (s : StarknetType)
  | SegmentArena
  | Snapshot (ty : CoreType)
  | Bytes31
  | BoundedInt (lower upper : Int)
  | IntRange (ty : CoreType)
  | Blake
  | QM31

/-- A list of `CoreType`, as a mutual companion of `CoreType`. -/
inductive CoreTypeList where
  | nil
  | cons (head : CoreType) (tail : CoreTypeList)

end

/-- Length of a `CoreTypeList` (Rust `variants.len()` / `members.len()`). -/
def CoreTypeList.length : CoreTypeList → Nat
  | .nil => 0
  | .cons _ ts => ts.length + 1

/-- Membership in a `CoreTypeList`. -/
def CoreTypeList.Mem (t : CoreType) : CoreTypeList → Prop
  | .nil => False
  | .cons a ts => t = a ∨ Mem t ts

/-- The compilation targets distinguished by the `cfg(target_arch)` split in
`is_complex` (spec §9: encode the target as a value). -/
inductive Arch where
  | x86_64
  | aarch64
deriving DecidableEq, Repr

/-- Errors surfaced by the type classifier. Modelled from the spec: the
`error` module is not part of the sources; §7 assigns `UnsupportedType(kind)`
to lowering/classification of an unimplemented family (which is what the
`native_panic!` arms of `src/types.rs` hit) and `IntegerLikeTypeExpected` to
`integer_range` on a non-integer family. The `kind` is the family name. -/
inductive Error where
  | UnsupportedType (kind : String)
  | IntegerLikeTypeExpected
deriving DecidableEq, Repr

instance {α : Type} [DecidableEq α] : DecidableEq (Except Error α) := fun a b =>
  match a, b with
  | .ok x, .ok y => decidable_of_iff (x = y) (by simp)
  | .error x, .error y => decidable_of_iff (x = y) (by simp)
  | .ok _, .error _ => .isFalse (by simp)
  | .error _, .ok _ => .isFalse (by simp)

/-- `CoreTypeConcrete::is_builtin` (src/types.rs:444-461): true exactly for
the listed builtin variants. -/
def is_builtin : CoreType → Bool
  | .Bitwise
  | .EcOp
  | .GasBuiltin
  | .BuiltinCosts
  | .RangeCheck
  | .RangeCheck96
  | .Pedersen
  | .Poseidon
  | .Coupon
  | .Starknet .System
  | .SegmentArena
  | .Circuit .AddMod
  | .Circuit .MulMod => true
  | _ => false

mutual

/-- `CoreTypeConcrete::is_zst` (src/types.rs:552-636). `Span`, `Blake`, `QM31`
hit `native_panic!` (modelled per spec §7 as `UnsupportedType`). -/
def is_zst : CoreType → Except Error Bool
  | .Bitwise | .EcOp | .RangeCheck | .Pedersen | .Poseidon | .RangeCheck96
  | .SegmentArena => pure false
  | .BuiltinCosts => pure false
  | .Uint128MulGuarantee | .Coupon => pure true
  | .Array _ | .Box _ | .Bytes31 | .EcPoint | .EcState | .Felt252
  | .GasBuiltin | .Uint8 | .Uint16 | .Uint32 | .Uint64 | .Uint128
  | .Sint8 | .Sint16 | .Sint32 | .Sint64 | .Sint128
  | .Felt252Dict _ | .Felt252DictEntry _ | .SquashedFelt252Dict _
  | .Starknet _ | .Nullable _ => pure false
  | .NonZero ty | .Uninit ty | .Snapshot ty => is_zst ty
  | .Enum .nil => pure true
  | .Enum (.cons v .nil) => is_zst v
  | .Enum (.cons _ (.cons _ _)) => pure false
  | .Struct members => allZst members
  | .BoundedInt _ _ => pure false
  | .Const inner_ty => is_zst inner_ty
  | .Span _ => .error (.UnsupportedType "Span")
  | .Circuit .AddMod | .Circuit .MulMod => pure false
  | .IntRange ty => is_zst ty
  | .Blake => .error (.UnsupportedType "Blake")
  | .QM31 => .error (.UnsupportedType "QM31")

/-- The member loop of the `Struct` arm of `is_zst`: stops (with `false`) at
the first non-ZST member. -/
def allZst : CoreTypeList → Except Error Bool
  | .nil => pure true
  | .cons m ms => do
    if (← is_zst m) then allZst ms else pure false

end

/-- The variant loop of the multi-variant `Enum` arm of `is_memory_allocated`
(src/types.rs:796-805): true as soon as one variant is not a ZST. -/
def anyNonZst : CoreTypeList → Except Error Bool
  | .nil => pure false
  | .cons v vs => do
    if (← is_zst v) then anyNonZst vs else pure true

mutual

/-- `CoreTypeConcrete::is_complex` (src/types.rs:463-550), with the
`cfg(target_arch)` split made explicit as an `Arch` parameter. The
`native_panic!` arms (`Const`, `Span`, `Secp256Point`, `Sha256StateHandle`,
`Blake`, `QM31`) are modelled per spec §7 as `UnsupportedType`. -/
def is_complex (arch : Arch) : CoreType → Except Error Bool
  | .Bitwise | .EcOp | .GasBuiltin | .BuiltinCosts | .RangeCheck
  | .Pedersen | .Poseidon | .RangeCheck96 | .Starknet .System
  | .SegmentArena => pure false
  | .Box _ | .Uint8 | .Uint16 | .Uint32 | .Uint64 | .Uint128
  | .Uint128MulGuarantee | .Sint8 | .Sint16 | .Sint32 | .Sint64 | .Sint128
  | .Nullable _ | .Felt252Dict _ | .SquashedFelt252Dict _ => pure false
  | .Array _ => pure true
  | .EcPoint => pure true
  | .EcState => pure true
  | .Felt252DictEntry _ => pure true
  | .Felt252 | .Bytes31
  | .Starknet .ClassHash | .Starknet .ContractAddress
  | .Starknet .StorageAddress | .Starknet .StorageBaseAddress =>
    pure (match arch with | .x86_64 => true | .aarch64 => false)
  | .NonZero ty | .Uninit ty | .Snapshot ty => is_complex arch ty
  | .Enum variants => is_complex_enum arch variants
  | .Struct _ => pure true
  | .BoundedInt lower upper =>
    pure (match arch with
      | .x86_64 => (Range.mk lower upper).offset_bit_width > 128
      | .aarch64 => false)
  | .Const _ => .error (.UnsupportedType "Const")
  | .Span _ => .error (.UnsupportedType "Span")
  | .Starknet .Secp256Point => .error (.UnsupportedType "Secp256Point")
  | .Starknet .Sha256StateHandle => .error (.UnsupportedType "Sha256StateHandle")
  | .Coupon => pure false
  | .Circuit .AddMod | .Circuit .MulMod => pure false
  | .IntRange _ => pure false
  | .Blake => .error (.UnsupportedType "Blake")
  | .QM31 => .error (.UnsupportedType "QM31")

/-- The `match info.variants.len()` of the `Enum` arm of `is_complex`:
`0 ⇒ false`, `1 ⇒` delegate to the variant, `≥ 2 ⇒ !self.is_zst()`. -/
def is_complex_enum (arch : Arch) : CoreTypeList → Except Error Bool
  | .nil => pure false
  | .cons v .nil => is_complex arch v
  | .cons a (.cons b rest) => do
    pure !(← is_zst (.Enum (.cons a (.cons b rest))))

end

mutual

/-- The body of `CoreTypeConcrete::layout` (src/types.rs:638-749) before the
final `.pad_to_align()` at line 748; `layout` below applies that padding.
Registry lookups of child layouts (`registry.get_type(..)?.layout(registry)?`)
are the padded child layout, i.e. `Layout.pad_to_align <$> layoutM child`.
`Span`, `Blake`, `QM31` hit `native_panic!` (modelled per spec §7). -/
def layoutM : CoreType → Except Error Layout
  | .Array _ =>
    pure ((((ptrLayout.extend (get_integer_layout 32)).1.extend
      (get_integer_layout 32)).1.extend (get_integer_layout 32)).1)
  | .Bitwise => pure ⟨8, 8⟩
  | .Box _ => pure ptrLayout
  | .EcOp => pure ⟨8, 8⟩
  | .EcPoint => pure (layout_repeat (get_integer_layout 252) 2)
  | .EcState => pure (layout_repeat (get_integer_layout 252) 4)
  | .Felt252 => pure (get_integer_layout 252)
  | .GasBuiltin => pure (get_integer_layout 64)
  | .BuiltinCosts => pure ptrLayout
  | .Uint8 => pure (get_integer_layout 8)
  | .Uint16 => pure (get_integer_layout 16)
  | .Uint32 => pure (get_integer_layout 32)
  | .Uint64 => pure (get_integer_layout 64)
  | .Uint128 => pure (get_integer_layout 128)
  | .Uint128MulGuarantee => pure ⟨0, 1⟩
  | .NonZero ty => Layout.pad_to_align <$> layoutM ty
  | .Nullable _ => pure ptrLayout
  | .RangeCheck => pure ⟨8, 8⟩
  | .Uninit ty => Layout.pad_to_align <$> layoutM ty
  | .Enum variants =>
    enumFold (get_integer_layout (enumTagBits variants.length))
      (get_integer_layout (enumTagBits variants.length)) variants
  | .Struct members =>
    (fun acc => acc.getD ⟨0, 1⟩) <$> structFold .none members
  | .Felt252Dict _ => pure ptrLayout
  | .Felt252DictEntry _ =>
    pure (((get_integer_layout 252).extend ptrLayout).1.extend ptrLayout).1
  | .SquashedFelt252Dict _ => pure ptrLayout
  | .Pedersen => pure ⟨8, 8⟩
  | .Poseidon => pure ⟨8, 8⟩
  | .Span _ => .error (.UnsupportedType "Span")
  | .Starknet .ClassHash => pure (get_integer_layout 252)
  | .Starknet .ContractAddress => pure (get_integer_layout 252)
  | .Starknet .StorageBaseAddress => pure (get_integer_layout 252)
  | .Starknet .StorageAddress => pure (get_integer_layout 252)
  | .Starknet .System => pure ptrLayout
  | .Starknet .Secp256Point =>
    pure (((get_integer_layout 256).extend (get_integer_layout 256)).1.extend
      (get_integer_layout 1)).1
  | .Starknet .Sha256StateHandle => pure ptrLayout
  | .SegmentArena => pure ⟨8, 8⟩
  | .Snapshot ty => Layout.pad_to_align <$> layoutM ty
  | .Sint8 => pure (get_integer_layout 8)
  | .Sint16 => pure (get_integer_layout 16)
  | .Sint32 => pure (get_integer_layout 32)
  | .Sint64 => pure (get_integer_layout 64)
  | .Sint128 => pure (get_integer_layout 128)
  | .Bytes31 => pure (get_integer_layout 248)
  | .BoundedInt lower upper =>
    pure (get_integer_layout (Range.mk lower upper).offset_bit_width)
  | .Const inner_ty => Layout.pad_to_align <$> layoutM inner_ty
  | .Coupon => pure ⟨0, 1⟩
  | .RangeCheck96 => pure (get_integer_layout 64)
  | .Circuit .AddMod | .Circuit .MulMod => pure ⟨8, 8⟩
  | .IntRange ty => do
    let inner := Layout.pad_to_align (← layoutM ty)
    pure (inner.extend inner).1
  | .Blake => .error (.UnsupportedType "Blake")
  | .QM31 => .error (.UnsupportedType "QM31")

/-- The `try_fold` of the `Enum` arm of `layout` (src/types.rs:676-685):
starting from the tag layout, take the component-wise max (of sizes and of
alignments) with `tag.extend(variant_layout)` for each variant. -/
def enumFold (tag acc : Layout) : CoreTypeList → Except Error Layout
  | .nil => pure acc
  | .cons v vs => do
    let l := (tag.extend (Layout.pad_to_align (← layoutM v))).1
    enumFold tag ⟨max acc.size l.size, max acc.align l.align⟩ vs

/-- The `try_fold` of the `Struct` arm of `layout` (src/types.rs:687-696):
extend an optional accumulator with each member layout in order. -/
def structFold (acc : Option Layout) : CoreTypeList → Except Error (Option Layout)
  | .nil => pure acc
  | .cons m ms => do
    let ml := Layout.pad_to_align (← layoutM m)
    match acc with
    | .some l => structFold (.some (l.extend ml).1) ms
    | .none => structFold (.some ml) ms

end

/-- `CoreTypeConcrete::layout` (src/types.rs:638-749): the match body
(`layoutM`) followed by the final `.pad_to_align()` at line 748. -/
def layout (t : CoreType) : Except Error Layout :=
  Layout.pad_to_align <$> layoutM t

mutual

/-- `CoreTypeConcrete::is_memory_allocated` (src/types.rs:751-839). `Blake`
and `QM31` hit `native_panic!` (modelled per spec §7 as `UnsupportedType`).
Note that `NonZero` and `Uninitialized` are constant `false` here (they do not
delegate), while `Snapshot` and `Const` delegate to the inner type. -/
def is_memory_allocated : CoreType → Except Error Bool
  | .IntRange _ => pure false
  | .Blake => .error (.UnsupportedType "Blake")
  | .Array _ => pure false
  | .Bitwise => pure false
  | .Box _ => pure false
  | .EcOp => pure false
  | .EcPoint => pure false
  | .EcState => pure false
  | .Felt252 => pure false
  | .GasBuiltin => pure false
  | .BuiltinCosts => pure false
  | .Uint8 | .Uint16 | .Uint32 | .Uint64 | .Uint128 => pure false
  | .Uint128MulGuarantee => pure false
  | .Sint8 | .Sint16 | .Sint32 | .Sint64 | .Sint128 => pure false
  | .NonZero _ => pure false
  | .Nullable _ => pure false
  | .RangeCheck | .RangeCheck96 => pure false
  | .Uninit _ => pure false
  | .Enum variants => memAllocEnum variants
  | .Struct members => memAllocStruct members
  | .Felt252Dict _ => pure false
  | .Felt252DictEntry _ => pure false
  | .SquashedFelt252Dict _ => pure false
  | .Pedersen | .Poseidon => pure false
  | .Span _ => pure false
  | .Starknet _ => pure false
  | .SegmentArena => pure false
  | .Snapshot ty => is_memory_allocated ty
  | .Bytes31 => pure false
  | .BoundedInt _ _ => pure false
  | .Const inner_ty => is_memory_allocated inner_ty
  | .Coupon => pure false
  | .Circuit _ => pure false
  | .QM31 => .error (.UnsupportedType "QM31")

/-- The `match info.variants.len()` of the `Enum` arm of
`is_memory_allocated` (src/types.rs:791-806): `0 ⇒ false`, `1 ⇒` delegate to
the variant, `≥ 2 ⇒` true iff some variant is not a ZST. -/
def memAllocEnum : CoreTypeList → Except Error Bool
  | .nil => pure false
  | .cons v .nil => is_memory_allocated v
  | .cons a (.cons b rest) => anyNonZst (.cons a (.cons b rest))

/-- The member loop of the `Struct` arm of `is_memory_allocated`
(src/types.rs:808-817): true as soon as one member is memory-allocated. -/
def memAllocStruct : CoreTypeList → Except Error Bool
  | .nil => pure false
  | .cons m ms => do
    if (← is_memory_allocated m) then pure true else memAllocStruct ms

end

/-- The `range_of::<T>()` helper of `integer_range` (src/types.rs:845-853):
`lower = MIN`, `upper = MAX + 1` of the machine type. -/
def range_of (min max : Int) : Range := ⟨min, max + 1⟩

/-- `CoreTypeConcrete::integer_range` (src/types.rs:841-881): defined for the
integer-like families, delegating through `Const` and `NonZero`; every other
family falls into the catch-all `Err(IntegerLikeTypeExpected)`. -/
def integer_range : CoreType → Except Error Range
  | .Uint8 => pure (range_of 0 255)
  | .Uint16 => pure (range_of 0 65535)
  | .Uint32 => pure (range_of 0 4294967295)
  | .Uint64 => pure (range_of 0 18446744073709551615)
  | .Uint128 => pure (range_of 0 (2 ^ 128 - 1))
  | .Felt252 => pure ⟨0, (PRIME : Int)⟩
  | .Sint8 => pure (range_of (-128) 127)
  | .Sint16 => pure (range_of (-32768) 32767)
  | .Sint32 => pure (range_of (-2147483648) 2147483647)
  | .Sint64 => pure (range_of (-9223372036854775808) 9223372036854775807)
  | .Sint128 => pure (range_of (-(2 ^ 127)) (2 ^ 127 - 1))
  | .BoundedInt lower upper => pure ⟨lower, upper⟩
  | .Bytes31 => pure ⟨0, 2 ^ 248⟩
  | .Const inner_ty => integer_range inner_ty
  | .NonZero ty => integer_range ty
  | _ => .error .IntegerLikeTypeExpected

/-- `TypeBuilder::build` (src/types.rs:154-442), abstracted to which arms
succeed. Modelled from the spec: the per-family `build` functions live in the
`types/*` submodules, which are not part of the sources, and are modelled as
succeeding; the `Const`, `Span`, `Blake` and `QM31` arms are `native_panic!`
in src/types.rs and terminate compilation with `UnsupportedType(kind)` per
spec §4.E/§7. -/
def build : CoreType → Except Error Unit
  | .Const _ => .error (.UnsupportedType "Const")
  | .Span _ => .error (.UnsupportedType "Span")
  | .Blake => .error (.UnsupportedType "Blake")
  | .QM31 => .error (.UnsupportedType "QM31")
  | _ => pure ()

mutual

/-- Registry-validity of an embedded type: every `BoundedInt` carries a
non-empty range (`lower < upper`), as Sierra guarantees for any type reachable
from a valid program registry. -/
def wf : CoreType → Bool
  | .BoundedInt lower upper => lower < upper
  | .Array ty | .Box ty | .Const ty | .NonZero ty
  | .Nullable ty | .Uninit ty | .Felt252Dict ty | .Felt252DictEntry ty
  | .SquashedFelt252Dict ty | .Span ty | .Snapshot ty | .IntRange ty => wf ty
  | .Enum ts | .Struct ts => wfList ts
  | _ => true

/-- `wf` on each element of a `CoreTypeList`. -/
def wfList : CoreTypeList → Bool
  | .nil => true
  | .cons t ts => wf t && wfList ts

end

/-- The list of padded layouts of a list of types (each entry is
`registry.get_type(id)?.layout(registry)?`), used to state the enum-layout
claim. -/
def mapLayouts : CoreTypeList → Except Error (List Layout)
  | .nil => pure []
  | .cons t ts => do
    let l ← layout t
    let rest ← mapLayouts ts
    pure (l :: rest)

/-- Component-wise maximum of two layouts (the combining step of the enum
layout fold, src/types.rs:681-684). -/
def layoutMax (a b : Layout) : Layout := ⟨max a.size b.size, max a.align b.align⟩

/-- Stated from the spec for the refinement claim C7: the families on which
`integer_range` is claimed to succeed — `Uint8..Uint128`, `Sint8..Sint128`,
`Felt252`, `Bytes31`, `BoundedInt`, and, by delegation to the inner type,
`Const` and `NonZero`. -/
def specIntegerFamily : CoreType → Bool
  | .Uint8 | .Uint16 | .Uint32 | .Uint64 | .Uint128
  | .Sint8 | .Sint16 | .Sint32 | .Sint64 | .Sint128
  | .Felt252 | .Bytes31 | .BoundedInt _ _ => true
  | .Const inner_ty => specIntegerFamily inner_ty
  | .NonZero ty => specIntegerFamily ty
  | _ => false

/-- Stated from the spec for the refinement claim C5: the claimed enum tag
width `⌈log₂ (max 1 (next_power_of_two k))⌉` in bits; the ceiling logarithm of
a positive `n` is the bit length of `n - 1`. -/
def specEnumTagBits (k : Nat) : Nat := bitLength (max 1 (nextPowerOfTwo k) - 1)

theorem roundUp_le {a : Nat} (h : 1 ≤ a) (n : Nat) : n ≤ roundUp n a := by
  unfold roundUp
  rw [Nat.mul_comm]
  have h1 := Nat.div_add_mod (n + a - 1) a
  have h2 : (n + a - 1) % a < a := Nat.mod_lt _ h
  omega

theorem roundUp_zero (a : Nat) : roundUp 0 a = 0 := by
  unfold roundUp
  match a with
  | 0 => rfl
  | b + 1 =>
    have h : (0 + (b + 1) - 1) / (b + 1) = 0 := Nat.div_eq_of_lt (by omega)
    rw [h, Nat.zero_mul]

theorem roundUp_eq_zero_iff {a : Nat} (h : 1 ≤ a) (n : Nat) :
    roundUp n a = 0 ↔ n = 0 := by
  constructor
  · intro h0
    have := roundUp_le h n
    omega
  · intro h0
    subst h0
    exact roundUp_zero a

theorem roundUp_mul (q a : Nat) (h : 1 ≤ a) : roundUp (q * a) a = q * a := by
  unfold roundUp
  rw [Nat.mul_comm q a]
  have h1 : a * q + a - 1 = a * q + (a - 1) := by omega
  rw [h1, Nat.mul_add_div (by omega), Nat.div_eq_of_lt (by omega), Nat.add_zero,
    Nat.mul_comm]

theorem roundUp_idem (n a : Nat) : roundUp (roundUp n a) a = roundUp n a := by
  match a with
  | 0 =>
    show roundUp ((n + 0 - 1) / 0 * 0) 0 = (n + 0 - 1) / 0 * 0
    rw [Nat.mul_zero]
    exact roundUp_zero 0
  | b + 1 => exact roundUp_mul ((n + (b + 1) - 1) / (b + 1)) (b + 1) (by omega)

theorem pad_to_align_idem (l : Layout) : l.pad_to_align.pad_to_align = l.pad_to_align := by
  unfold Layout.pad_to_align
  simp [roundUp_idem]

theorem pad_to_align_align (l : Layout) : l.pad_to_align.align = l.align := rfl

theorem pad_to_align_size_eq_zero {l : Layout} (h : 1 ≤ l.align) :
    l.pad_to_align.size = 0 ↔ l.size = 0 := by
  unfold Layout.pad_to_align
  exact roundUp_eq_zero_iff h l.size

theorem extend_fst (l next : Layout) :
    (l.extend next).1 = ⟨roundUp l.size next.align + next.size, max l.align next.align⟩ := rfl

theorem extend_size_le_left {next : Layout} (h : 1 ≤ next.align) (l : Layout) :
    l.size ≤ (l.extend next).1.size := by
  rw [extend_fst]
  have := roundUp_le h l.size
  simpa using by omega

theorem bitLengthAux_stable (n f g : Nat) (h1 : n ≤ f) (h2 : n ≤ g) :
    bitLengthAux f n = bitLengthAux g n := by
  match n, f, g with
  | 0, f, g => cases f <;> cases g <;> rfl
  | n + 1, f + 1, g + 1 =>
    show bitLengthAux f ((n + 1) / 2) + 1 = bitLengthAux g ((n + 1) / 2) + 1
    have e := bitLengthAux_stable ((n + 1) / 2) f g (by omega) (by omega)
    omega
termination_by n

theorem bitLength_succ (n : Nat) :
    bitLength (n + 1) = bitLength ((n + 1) / 2) + 1 := by
  show bitLengthAux (n + 1) (n + 1) = bitLength ((n + 1) / 2) + 1
  have e1 : bitLengthAux (n + 1) (n + 1) = bitLengthAux n ((n + 1) / 2) + 1 := rfl
  rw [e1, bitLengthAux_stable ((n + 1) / 2) n ((n + 1) / 2) (by omega) (by omega)]
  rfl

theorem bitLength_pos {n : Nat} (h : 1 ≤ n) : 1 ≤ bitLength n := by
  match n, h with
  | n + 1, _ => rw [bitLength_succ]; omega

theorem bitLength_ge_two {n : Nat} (h : 2 ≤ n) : 2 ≤ bitLength n := by
  match n, h with
  | n + 1, _ =>
    rw [bitLength_succ]
    have h1 : 1 ≤ (n + 1) / 2 := by omega
    have := bitLength_pos h1
    omega

theorem bitLength_two_pow (m : Nat) : bitLength (2 ^ m) = m + 1 := by
  induction m with
  | zero => decide
  | succ m ih =>
    have hp : 1 ≤ 2 ^ m := Nat.one_le_two_pow
    have h2 : 2 ^ (m + 1) = 2 * 2 ^ m := by rw [Nat.pow_succ, Nat.mul_comm]
    have h1 : 2 ^ (m + 1) = (2 ^ (m + 1) - 1) + 1 := by omega
    rw [h1, bitLength_succ]
    have h3 : ((2 ^ (m + 1) - 1) + 1) / 2 = 2 ^ m := by omega
    rw [h3, ih]

theorem bitLength_two_pow_sub_one (m : Nat) : bitLength (2 ^ m - 1) = m := by
  induction m with
  | zero => decide
  | succ m ih =>
    have hp : 1 ≤ 2 ^ m := Nat.one_le_two_pow
    have h2 : 2 ^ (m + 1) = 2 * 2 ^ m := by rw [Nat.pow_succ, Nat.mul_comm]
    have h1 : 2 ^ (m + 1) - 1 = (2 ^ (m + 1) - 2) + 1 := by omega
    rw [h1, bitLength_succ]
    have h3 : ((2 ^ (m + 1) - 2) + 1) / 2 = 2 ^ m - 1 := by omega
    rw [h3, ih]

theorem nextPowerOfTwo_pos (k : Nat) : 1 ≤ nextPowerOfTwo k := by
  unfold nextPowerOfTwo
  split
  · omega
  · exact Nat.one_le_two_pow

theorem specEnumTagBits_eq (k : Nat) : specEnumTagBits k = enumTagBits k := by
  unfold specEnumTagBits enumTagBits nextPowerOfTwo
  split
  · decide
  · have hp : 1 ≤ 2 ^ bitLength (k - 1) := Nat.one_le_two_pow
    rw [Nat.max_eq_right hp, bitLength_two_pow_sub_one, bitLength_two_pow]
    omega

theorem enumTagBits_pos {k : Nat} (h : 2 ≤ k) : 1 ≤ enumTagBits k := by
  unfold enumTagBits nextPowerOfTwo
  split
  · omega
  · rw [bitLength_two_pow]
    have h1 : 1 ≤ k - 1 := by omega
    have := bitLength_pos h1
    omega

theorem gil_align_pos (w : Nat) : 1 ≤ (get_integer_layout w).align := by
  have hn := nextPowerOfTwo_pos ((w + 7) / 8)
  unfold get_integer_layout
  repeat' split
  all_goals simp_all

theorem gil_size_eq_zero (w : Nat) : (get_integer_layout w).size = 0 ↔ w = 0 := by
  have hn := nextPowerOfTwo_pos ((w + 7) / 8)
  unfold get_integer_layout
  repeat' split
  all_goals try simp_all
  all_goals omega

theorem map_ok {α β : Type} {f : α → β} {e : Except Error α} {x : β}
    (h : f <$> e = .ok x) : ∃ y, e = .ok y ∧ x = f y := by
  cases e with
  | ok y => cases h; exact ⟨y, rfl, rfl⟩
  | error e => cases h

theorem bind_ok {α β : Type} {e : Except Error α} {f : α → Except Error β} {x : β}
    (h : (e >>= f) = .ok x) : ∃ y, e = .ok y ∧ f y = .ok x := by
  cases e with
  | ok y => exact ⟨y, rfl, h⟩
  | error e => cases h

theorem wfList_mem : ∀ (ms : CoreTypeList) (m : CoreType),
    wfList ms = true → CoreTypeList.Mem m ms → wf m = true
  | .cons a ts, m, hw, hm => by
    simp only [wfList, Bool.and_eq_true] at hw
    simp only [CoreTypeList.Mem] at hm
    cases hm with
    | inl he => subst he; exact hw.1
    | inr hm => exact wfList_mem ts m hw.2 hm

theorem enumFold_acc_le : ∀ (vs : CoreTypeList) (tag acc r : Layout),
    enumFold tag acc vs = .ok r → acc.size ≤ r.size ∧ acc.align ≤ r.align
  | .nil, tag, acc, r, h => by cases h; exact ⟨Nat.le_refl _, Nat.le_refl _⟩
  | .cons v vs, tag, acc, r, h => by
    simp only [enumFold] at h
    obtain ⟨y, hy, h2⟩ := bind_ok h
    have ih := enumFold_acc_le vs tag _ r h2
    simp only at ih
    refine ⟨Nat.le_trans (Nat.le_max_left _ _) ih.1,
      Nat.le_trans (Nat.le_max_left _ _) ih.2⟩

theorem structFold_align : ∀ (ms : CoreTypeList),
    (∀ m, CoreTypeList.Mem m ms → ∀ y, layoutM m = .ok y → 1 ≤ y.align) →
    ∀ acc o, (∀ l, acc = .some l → 1 ≤ l.align) → structFold acc ms = .ok o →
    ∀ l, o = .some l → 1 ≤ l.align
  | .nil, _, acc, o, hacc, h, l, ho => by cases h; exact hacc l ho
  | .cons m ms, Hm, acc, o, hacc, h, l, ho => by
    simp only [structFold] at h
    obtain ⟨y, hy, h2⟩ := bind_ok h
    have hym : 1 ≤ y.align := Hm m (Or.inl rfl) y hy
    have Hm2 : ∀ m2, CoreTypeList.Mem m2 ms → ∀ y2, layoutM m2 = .ok y2 → 1 ≤ y2.align :=
      fun m2 hm2 => Hm m2 (Or.inr hm2)
    cases acc with
    | none =>
      refine structFold_align ms Hm2 _ o ?_ h2 l ho
      intro l2 hl2
      cases hl2
      exact hym
    | some la =>
      refine structFold_align ms Hm2 _ o ?_ h2 l ho
      intro l2 hl2
      cases hl2
      show 1 ≤ max la.align y.pad_to_align.align
      have : (1 : Nat) ≤ y.pad_to_align.align := hym
      omega

mutual

theorem layoutM_align_pos : ∀ (t : CoreType) (x : Layout), layoutM t = .ok x → 1 ≤ x.align
  | .Bitwise, x, h | .EcOp, x, h | .RangeCheck, x, h | .Pedersen, x, h
  | .Poseidon, x, h | .SegmentArena, x, h | .Box _, x, h | .BuiltinCosts, x, h
  | .Nullable _, x, h | .Felt252Dict _, x, h | .SquashedFelt252Dict _, x, h
  | .Starknet .System, x, h | .Starknet .Sha256StateHandle, x, h
  | .Circuit .AddMod, x, h | .Circuit .MulMod, x, h => by cases h; decide
  | .Array _, x, h => by cases h; decide
  | .EcPoint, x, h => by cases h; decide
  | .EcState, x, h => by cases h; decide
  | .Felt252, x, h | .GasBuiltin, x, h | .Uint8, x, h | .Uint16, x, h
  | .Uint32, x, h | .Uint64, x, h | .Uint128, x, h | .Sint8, x, h
  | .Sint16, x, h | .Sint32, x, h | .Sint64, x, h | .Sint128, x, h
  | .Bytes31, x, h | .RangeCheck96, x, h => by cases h; decide
  | .Starknet .ClassHash, x, h | .Starknet .ContractAddress, x, h
  | .Starknet .StorageBaseAddress, x, h | .Starknet .StorageAddress, x, h => by
    cases h; decide
  | .Starknet .Secp256Point, x, h => by cases h; decide
  | .Felt252DictEntry _, x, h => by cases h; decide
  | .Uint128MulGuarantee, x, h | .Coupon, x, h => by cases h; decide
  | .BoundedInt lower upper, x, h => by cases h; exact gil_align_pos _
  | .NonZero ty, x, h | .Uninit ty, x, h | .Snapshot ty, x, h
  | .Const ty, x, h => by
    obtain ⟨y, hy, hx⟩ := map_ok h
    subst hx
    exact layoutM_align_pos ty y hy
  | .IntRange ty, x, h => by
    simp only [layoutM] at h
    obtain ⟨y, hy, h2⟩ := bind_ok h
    cases h2
    show 1 ≤ max y.pad_to_align.align y.pad_to_align.align
    have : (1 : Nat) ≤ y.pad_to_align.align := layoutM_align_pos ty y hy
    omega
  | .Enum vs, x, h => by
    simp only [layoutM] at h
    have h2 := (enumFold_acc_le vs _ _ x h).2
    have h3 := gil_align_pos (enumTagBits vs.length)
    omega
  | .Struct ms, x, h => by
    simp only [layoutM] at h
    obtain ⟨o, ho, hx⟩ := map_ok h
    subst hx
    cases o with
    | none => decide
    | some l =>
      exact structFold_align ms (layoutList_align_pos ms) .none (.some l)
        (fun _ hl => by cases hl) ho l rfl
  | .Span _, x, h => by cases h
  | .Blake, x, h => by cases h
  | .QM31, x, h => by cases h

theorem layoutList_align_pos : ∀ (ms : CoreTypeList) (m : CoreType),
    CoreTypeList.Mem m ms → ∀ (x : Layout), layoutM m = .ok x → 1 ≤ x.align
  | .nil, m, hm, x, h => by cases hm
  | .cons a ts, m, hm, x, h => by
    simp only [CoreTypeList.Mem] at hm
    cases hm with
    | inl he => subst he; exact layoutM_align_pos _ x h
    | inr hm => exact layoutList_align_pos ts m hm x h

end

theorem layout_align_pos (t : CoreType) (x : Layout) (h : layout t = .ok x) :
    1 ≤ x.align := by
  unfold layout at h
  obtain ⟨y, hy, hx⟩ := map_ok h
  subst hx
  exact layoutM_align_pos t y hy

theorem layout_padded (t : CoreType) (l : Layout) (h : layout t = .ok l) :
    l.pad_to_align = l := by
  unfold layout at h
  obtain ⟨y, hy, hx⟩ := map_ok h
  subst hx
  exact pad_to_align_idem y

theorem extend_size_of_zero {l next : Layout} (hl : l.size = 0) :
    (l.extend next).1.size = next.size := by
  show roundUp l.size next.align + next.size = next.size
  rw [hl, roundUp_zero, Nat.zero_add]

theorem structFold_size_mono : ∀ (ms : CoreTypeList) (l : Layout) (o : Option Layout),
    structFold (.some l) ms = .ok o → ∃ l2, o = .some l2 ∧ l.size ≤ l2.size
  | .nil, l, o, h => by cases h; exact ⟨l, rfl, Nat.le_refl _⟩
  | .cons m ms, l, o, h => by
    simp only [structFold] at h
    obtain ⟨y, hy, h2⟩ := bind_ok h
    obtain ⟨l2, ho, hle⟩ := structFold_size_mono ms ((l.extend y.pad_to_align).1) o h2
    have hya : 1 ≤ y.pad_to_align.align := layoutM_align_pos m y hy
    have h3 : l.size ≤ (l.extend y.pad_to_align).1.size := extend_size_le_left hya l
    exact ⟨l2, ho, Nat.le_trans h3 hle⟩

theorem structFold_allZst_true : ∀ (ms : CoreTypeList),
    (∀ m, CoreTypeList.Mem m ms → ∀ b y, is_zst m = .ok b → layoutM m = .ok y →
      (b = true ↔ y.size = 0)) →
    allZst ms = .ok true → ∀ acc o, (∀ l, acc = .some l → l.size = 0) →
    structFold acc ms = .ok o → ∀ l, o = .some l → l.size = 0
  | .nil, _, _, acc, o, hacc, hf, l, ho => by cases hf; exact hacc l ho
  | .cons m ms, Hz, hz, acc, o, hacc, hf, l, ho => by
    simp only [allZst] at hz
    obtain ⟨b, hb, hz2⟩ := bind_ok hz
    simp only [structFold] at hf
    obtain ⟨y, hy, hf2⟩ := bind_ok hf
    cases b with
    | false => cases hz2
    | true =>
      simp only [if_true] at hz2
      have hy0 : y.size = 0 := (Hz m (Or.inl rfl) true y hb hy).mp rfl
      have hp0 : y.pad_to_align.size = 0 := by
        rw [pad_to_align_size_eq_zero (layoutM_align_pos m y hy)]
        exact hy0
      have Hz2 : ∀ m2, CoreTypeList.Mem m2 ms → ∀ b y, is_zst m2 = .ok b →
          layoutM m2 = .ok y → (b = true ↔ y.size = 0) :=
        fun m2 hm2 => Hz m2 (Or.inr hm2)
      cases acc with
      | none =>
        refine structFold_allZst_true ms Hz2 hz2 _ o ?_ hf2 l ho
        intro l2 hl2
        cases hl2
        exact hp0
      | some la =>
        refine structFold_allZst_true ms Hz2 hz2 _ o ?_ hf2 l ho
        intro l2 hl2
        cases hl2
        rw [extend_size_of_zero (hacc la rfl)]
        exact hp0

theorem structFold_allZst_false : ∀ (ms : CoreTypeList),
    (∀ m, CoreTypeList.Mem m ms → ∀ b y, is_zst m = .ok b → layoutM m = .ok y →
      (b = true ↔ y.size = 0)) →
    allZst ms = .ok false → ∀ acc o, (∀ l, acc = .some l → l.size = 0) →
    structFold acc ms = .ok o → ∃ l2, o = .some l2 ∧ l2.size ≠ 0
  | .nil, _, hz, _, _, _, _ => by cases hz
  | .cons m ms, Hz, hz, acc, o, hacc, hf => by
    simp only [allZst] at hz
    obtain ⟨b, hb, hz2⟩ := bind_ok hz
    simp only [structFold] at hf
    obtain ⟨y, hy, hf2⟩ := bind_ok hf
    have hpa : 1 ≤ y.align := layoutM_align_pos m y hy
    cases b with
    | true =>
      simp only [if_true] at hz2
      have hy0 : y.size = 0 := (Hz m (Or.inl rfl) true y hb hy).mp rfl
      have hp0 : y.pad_to_align.size = 0 := by
        rw [pad_to_align_size_eq_zero hpa]
        exact hy0
      have Hz2 : ∀ m2, CoreTypeList.Mem m2 ms → ∀ b y, is_zst m2 = .ok b →
          layoutM m2 = .ok y → (b = true ↔ y.size = 0) :=
        fun m2 hm2 => Hz m2 (Or.inr hm2)
      cases acc with
      | none =>
        refine structFold_allZst_false ms Hz2 hz2 _ o ?_ hf2
        intro l2 hl2
        cases hl2
        exact hp0
      | some la =>
        refine structFold_allZst_false ms Hz2 hz2 _ o ?_ hf2
        intro l2 hl2
        cases hl2
        rw [extend_size_of_zero (hacc la rfl)]
        exact hp0
    | false =>
      have hyne : y.size ≠ 0 := by
        intro h0
        exact Bool.false_ne_true ((Hz m (Or.inl rfl) false y hb hy).mpr h0)
      have hpne : y.pad_to_align.size ≠ 0 := fun h0 =>
        hyne ((pad_to_align_size_eq_zero hpa).mp h0)
      cases acc with
      | none =>
        obtain ⟨l2, ho, hle⟩ := structFold_size_mono ms y.pad_to_align o hf2
        exact ⟨l2, ho, by omega⟩
      | some la =>
        obtain ⟨l2, ho, hle⟩ := structFold_size_mono ms ((la.extend y.pad_to_align).1) o hf2
        rw [extend_size_of_zero (hacc la rfl)] at hle
        exact ⟨l2, ho, by omega⟩

mutual

theorem zst_size : ∀ (t : CoreType), wf t = true → ∀ (b : Bool) (x : Layout),
    is_zst t = .ok b → layoutM t = .ok x → (b = true ↔ x.size = 0)
  | .Bitwise, _, b, x, hz, hx | .EcOp, _, b, x, hz, hx
  | .RangeCheck, _, b, x, hz, hx | .Pedersen, _, b, x, hz, hx
  | .Poseidon, _, b, x, hz, hx | .RangeCheck96, _, b, x, hz, hx
  | .SegmentArena, _, b, x, hz, hx | .BuiltinCosts, _, b, x, hz, hx
  | .Box _, _, b, x, hz, hx | .Nullable _, _, b, x, hz, hx
  | .Felt252Dict _, _, b, x, hz, hx | .SquashedFelt252Dict _, _, b, x, hz, hx
  | .Circuit .AddMod, _, b, x, hz, hx | .Circuit .MulMod, _, b, x, hz, hx
  | .Array _, _, b, x, hz, hx | .EcPoint, _, b, x, hz, hx
  | .EcState, _, b, x, hz, hx | .Felt252, _, b, x, hz, hx
  | .GasBuiltin, _, b, x, hz, hx | .Uint8, _, b, x, hz, hx
  | .Uint16, _, b, x, hz, hx | .Uint32, _, b, x, hz, hx
  | .Uint64, _, b, x, hz, hx | .Uint128, _, b, x, hz, hx
  | .Sint8, _, b, x, hz, hx | .Sint16, _, b, x, hz, hx
  | .Sint32, _, b, x, hz, hx | .Sint64, _, b, x, hz, hx
  | .Sint128, _, b, x, hz, hx | .Bytes31, _, b, x, hz, hx
  | .Felt252DictEntry _, _, b, x, hz, hx => by cases hz; cases hx; decide
  | .Starknet .ClassHash, _, b, x, hz, hx | .Starknet .ContractAddress, _, b, x, hz, hx
  | .Starknet .StorageBaseAddress, _, b, x, hz, hx
  | .Starknet .StorageAddress, _, b, x, hz, hx | .Starknet .System, _, b, x, hz, hx
  | .Starknet .Secp256Point, _, b, x, hz, hx
  | .Starknet .Sha256StateHandle, _, b, x, hz, hx => by cases hz; cases hx; decide
  | .Uint128MulGuarantee, _, b, x, hz, hx | .Coupon, _, b, x, hz, hx => by
    cases hz; cases hx; decide
  | .BoundedInt lower upper, hw, b, x, hz, hx => by
    simp only [wf] at hw
    have hlt : lower < upper := of_decide_eq_true hw
    cases hz
    cases hx
    have h1 : 1 ≤ (upper - lower).toNat := by omega
    have h2 := bitLength_pos h1
    rw [gil_size_eq_zero]
    unfold Range.offset_bit_width
    simp only [Bool.false_eq_true, false_iff]
    omega
  | .NonZero ty, hw, b, x, hz, hx | .Uninit ty, hw, b, x, hz, hx
  | .Snapshot ty, hw, b, x, hz, hx | .Const ty, hw, b, x, hz, hx => by
    simp only [wf] at hw
    simp only [is_zst] at hz
    simp only [layoutM] at hx
    obtain ⟨y, hy, hx2⟩ := map_ok hx
    subst hx2
    rw [pad_to_align_size_eq_zero (layoutM_align_pos ty y hy)]
    exact zst_size ty hw b y hz hy
  | .IntRange ty, hw, b, x, hz, hx => by
    simp only [wf] at hw
    simp only [is_zst] at hz
    simp only [layoutM] at hx
    obtain ⟨y, hy, h2⟩ := bind_ok hx
    cases h2
    have hpa : 1 ≤ y.align := layoutM_align_pos ty y hy
    have ih := zst_size ty hw b y hz hy
    rw [← pad_to_align_size_eq_zero hpa] at ih
    rw [ih]
    show y.pad_to_align.size = 0 ↔
      roundUp y.pad_to_align.size y.pad_to_align.align + y.pad_to_align.size = 0
    constructor
    · intro h0
      rw [h0, roundUp_zero]
    · intro h0
      omega
  | .Enum .nil, _, b, x, hz, hx => by cases hz; cases hx; decide
  | .Enum (.cons v .nil), hw, b, x, hz, hx => by
    simp only [wf] at hw
    simp only [is_zst] at hz
    simp only [layoutM, enumFold] at hx
    obtain ⟨y, hy, h2⟩ := bind_ok hx
    cases h2
    have hpa : 1 ≤ y.align := layoutM_align_pos v y hy
    have htag : get_integer_layout
        (enumTagBits (CoreTypeList.length (.cons v .nil))) = ⟨0, 1⟩ := rfl
    rw [htag]
    have ih := zst_size_list (.cons v .nil) hw v (Or.inl rfl) b y hz hy
    rw [← pad_to_align_size_eq_zero hpa] at ih
    rw [ih]
    show y.pad_to_align.size = 0 ↔
      (Layout.mk
        (max (0 : Nat) ((Layout.mk 0 1).extend y.pad_to_align).1.size)
        (max (1 : Nat) ((Layout.mk 0 1).extend y.pad_to_align).1.align)).size = 0
    rw [extend_size_of_zero rfl]
    simp
  | .Enum (.cons a (.cons a2 rest)), _, b, x, hz, hx => by
    cases hz
    simp only [layoutM] at hx
    have h2 := (enumFold_acc_le _ _ _ x hx).1
    have hk : 2 ≤ CoreTypeList.length (.cons a (.cons a2 rest)) := by
      simp [CoreTypeList.length]
    have hw2 := enumTagBits_pos hk
    have hs := gil_size_eq_zero (enumTagBits (CoreTypeList.length (.cons a (.cons a2 rest))))
    simp only [Bool.false_eq_true, false_iff]
    omega
  | .Struct ms, hw, b, x, hz, hx => by
    simp only [wf] at hw
    simp only [is_zst] at hz
    simp only [layoutM] at hx
    obtain ⟨o, ho, hx2⟩ := map_ok hx
    subst hx2
    cases b with
    | true =>
      have h0 := structFold_allZst_true ms (zst_size_list ms hw) hz .none o
        (fun l hl => by cases hl) ho
      cases o with
      | none => simp
      | some l => simpa using h0 l rfl
    | false =>
      obtain ⟨l2, ho2, hne⟩ := structFold_allZst_false ms (zst_size_list ms hw) hz .none o
        (fun l hl => by cases hl) ho
      subst ho2
      simpa using hne
  | .Span _, _, b, x, hz, hx => by cases hz
  | .Blake, _, b, x, hz, hx => by cases hz
  | .QM31, _, b, x, hz, hx => by cases hz

theorem zst_size_list : ∀ (ms : CoreTypeList), wfList ms = true →
    ∀ m, CoreTypeList.Mem m ms → ∀ (b : Bool) (y : Layout), is_zst m = .ok b →
    layoutM m = .ok y → (b = true ↔ y.size = 0)
  | .nil, _, m, hm, _, _, _, _ => by cases hm
  | .cons a ts, hw, m, hm, b, y, hz, hy => by
    simp only [wfList, Bool.and_eq_true] at hw
    simp only [CoreTypeList.Mem] at hm
    cases hm with
    | inl he => subst he; exact zst_size _ hw.1 b y hz hy
    | inr hm => exact zst_size_list ts hw.2 m hm b y hz hy

end

theorem ok_bind {α β : Type} (y : α) (f : α → Except Error β) :
    ((.ok y : Except Error α) >>= f) = f y := rfl

theorem map_pad_idem (e : Except Error Layout) :
    Layout.pad_to_align <$> (Layout.pad_to_align <$> e) = Layout.pad_to_align <$> e := by
  cases e with
  | ok y => exact congrArg Except.ok (pad_to_align_idem y)
  | error e => rfl

theorem mapLayouts_align : ∀ (vs : CoreTypeList) (ls : List Layout),
    mapLayouts vs = .ok ls → ∀ l ∈ ls, 1 ≤ l.align
  | .nil, ls, h => by cases h; simp
  | .cons v vs, ls, h => by
    simp only [mapLayouts] at h
    obtain ⟨l0, hl0, h2⟩ := bind_ok h
    obtain ⟨ls2, hls2, h3⟩ := bind_ok h2
    cases h3
    intro l hl
    cases hl with
    | head => exact layout_align_pos v l0 hl0
    | tail _ hl => exact mapLayouts_align vs ls2 hls2 l hl

theorem layoutMax_tag_extend (tag l : Layout) (h : 1 ≤ l.align) :
    layoutMax tag ((tag.extend l).1) = (tag.extend l).1 := by
  have h1 := roundUp_le h tag.size
  simp only [layoutMax, extend_fst, Layout.mk.injEq]
  constructor <;> omega

theorem enumFold_eq_foldl : ∀ (vs : CoreTypeList) (ls : List Layout) (tag acc : Layout),
    mapLayouts vs = .ok ls →
    enumFold tag acc vs = .ok (List.foldl layoutMax acc
      (ls.map (fun l => (tag.extend l).1)))
  | .nil, ls, tag, acc, h => by cases h; rfl
  | .cons v vs, ls, tag, acc, h => by
    simp only [mapLayouts] at h
    obtain ⟨l0, hl0, h2⟩ := bind_ok h
    obtain ⟨ls2, hls2, h3⟩ := bind_ok h2
    cases h3
    unfold layout at hl0
    obtain ⟨y, hy, he⟩ := map_ok hl0
    subst he
    simp only [enumFold, hy, ok_bind]
    have ih := enumFold_eq_foldl vs ls2 tag
      (layoutMax acc ((tag.extend y.pad_to_align).1)) hls2
    simp only [layoutMax] at ih
    rw [ih]
    simp [layoutMax]

theorem allZst_of_mem : ∀ (ms : CoreTypeList),
    (∀ m, CoreTypeList.Mem m ms → is_zst m = .ok true) → allZst ms = .ok true
  | .nil, _ => rfl
  | .cons m ms, H => by
    simp only [allZst, H m (Or.inl rfl), ok_bind, if_true]
    exact allZst_of_mem ms (fun m2 hm2 => H m2 (Or.inr hm2))

theorem integer_range_domain : ∀ (t : CoreType),
    ((∃ r, integer_range t = .ok r) ↔ specIntegerFamily t = true) ∧
    (specIntegerFamily t = false → integer_range t = .error .IntegerLikeTypeExpected)
  | .Uint8 | .Uint16 | .Uint32 | .Uint64 | .Uint128
  | .Sint8 | .Sint16 | .Sint32 | .Sint64 | .Sint128
  | .Felt252 | .Bytes31 | .BoundedInt _ _ =>
    ⟨⟨fun _ => rfl, fun _ => ⟨_, rfl⟩⟩, fun h => by cases h⟩
  | .Const ty => integer_range_domain ty
  | .NonZero ty => integer_range_domain ty
  | .Array _ | .Coupon | .Bitwise | .Box _ | .Circuit .AddMod | .Circuit .MulMod
  | .EcOp | .EcPoint | .EcState | .GasBuiltin | .BuiltinCosts
  | .Uint128MulGuarantee | .Nullable _ | .RangeCheck | .RangeCheck96
  | .Uninit _ | .Enum _ | .Struct _ | .Felt252Dict _ | .Felt252DictEntry _
  | .SquashedFelt252Dict _ | .Pedersen | .Poseidon | .Span _
  | .Starknet _ | .SegmentArena | .Snapshot _ | .IntRange _ | .Blake | .QM31 =>
    ⟨⟨fun hr => hr.elim (fun _ hr2 => by cases hr2), fun h => by cases h⟩, fun _ => rfl⟩

/-- Claim C1, counterexample: the claim says all four predicates delegate
through every wrapper, but `is_builtin` does not delegate: `NonZero<RangeCheck>`
is not classified as a builtin although `RangeCheck` is. -/
theorem C1_counterexample :
    is_builtin (.NonZero .RangeCheck) ≠ is_builtin .RangeCheck := by decide

/-- Claim C1 (amended): the wrappers delegate as follows. `is_zst` and
`layout` delegate for all four wrappers; `is_complex` delegates for `NonZero`,
`Snapshot`, `Uninitialized` but is unimplemented (an error) for `Const`;
`integer_range` delegates for `NonZero` and `Const` but fails with
`IntegerLikeTypeExpected` for `Snapshot` and `Uninitialized`; of the
`is_memory_allocated` arms, `Snapshot` and `Const` delegate while `NonZero`
and `Uninitialized` are constant `false`; `is_builtin` is constant `false` on
every wrapper. -/
theorem C1_wrapper_delegation (t : CoreType) (arch : Arch) :
    (is_zst (.NonZero t) = is_zst t ∧ is_zst (.Snapshot t) = is_zst t ∧
      is_zst (.Uninit t) = is_zst t ∧ is_zst (.Const t) = is_zst t) ∧
    (layout (.NonZero t) = layout t ∧ layout (.Snapshot t) = layout t ∧
      layout (.Uninit t) = layout t ∧ layout (.Const t) = layout t) ∧
    (is_complex arch (.NonZero t) = is_complex arch t ∧
      is_complex arch (.Snapshot t) = is_complex arch t ∧
      is_complex arch (.Uninit t) = is_complex arch t ∧
      is_complex arch (.Const t) = .error (.UnsupportedType "Const")) ∧
    (integer_range (.NonZero t) = integer_range t ∧
      integer_range (.Const t) = integer_range t ∧
      integer_range (.Snapshot t) = .error .IntegerLikeTypeExpected ∧
      integer_range (.Uninit t) = .error .IntegerLikeTypeExpected) ∧
    (is_memory_allocated (.Snapshot t) = is_memory_allocated t ∧
      is_memory_allocated (.Const t) = is_memory_allocated t ∧
      is_memory_allocated (.NonZero t) = .ok false ∧
      is_memory_allocated (.Uninit t) = .ok false) ∧
    (is_builtin (.NonZero t) = false ∧ is_builtin (.Snapshot t) = false ∧
      is_builtin (.Uninit t) = false ∧ is_builtin (.Const t) = false) := by
  refine ⟨⟨rfl, rfl, rfl, rfl⟩, ⟨?_, ?_, ?_, ?_⟩, ⟨rfl, rfl, rfl, rfl⟩,
    ⟨rfl, rfl, rfl, rfl⟩, ⟨rfl, rfl, rfl, rfl⟩, ⟨rfl, rfl, rfl, rfl⟩⟩
  all_goals unfold layout
  all_goals simp only [layoutM]
  all_goals exact map_pad_idem (layoutM t)

/-- Claim C2: for every type of the families `Const`, `Span`, `Blake`, `QM31`,
type lowering (`TypeBuilder::build`) returns the error `UnsupportedType(kind)`
instead of panicking. -/
theorem C2_build_unsupported (t : CoreType) :
    build (.Const t) = .error (.UnsupportedType "Const") ∧
    build (.Span t) = .error (.UnsupportedType "Span") ∧
    build .Blake = .error (.UnsupportedType "Blake") ∧
    build .QM31 = .error (.UnsupportedType "QM31") :=
  ⟨rfl, rfl, rfl, rfl⟩

/-- Claim C3, counterexample: the claim asserts that `Uint128MulGuarantee` and
`Coupon` "report `is_zst == true` while still occupying one machine word in
their layout"; in the code both have the zero-sized layout `(0, 1)`
(src/types.rs:665 and 737), not a one-word layout, so they are not exceptions
to the equivalence at all. -/
theorem C3_counterexample :
    is_zst .Uint128MulGuarantee = .ok true ∧
    layout .Uint128MulGuarantee = .ok ⟨0, 1⟩ ∧
    is_zst .Coupon = .ok true ∧ layout .Coupon = .ok ⟨0, 1⟩ := by decide

/-- Claim C3 (amended): for every registry-valid concrete type on which both
functions succeed, `is_zst(T)` holds if and only if `layout(T).size == 0`,
with no exceptions — `Uint128MulGuarantee` and `Coupon` report `is_zst = true`
and also have zero-sized layouts. -/
theorem C3_zst_iff_layout_size_zero (t : CoreType) (b : Bool) (l : Layout)
    (hw : wf t = true) (hz : is_zst t = .ok b) (hl : layout t = .ok l) :
    b = true ↔ l.size = 0 := by
  unfold layout at hl
  obtain ⟨y, hy, he⟩ := map_ok hl
  subst he
  rw [pad_to_align_size_eq_zero (layoutM_align_pos t y hy)]
  exact zst_size t hw b y hz hy

/-- Witness for C3 at the concrete types `Felt252` (non-ZST) applied through
the theorem with all hypotheses discharged by evaluation. -/
theorem C3_witness :
    wf .Felt252 = true ∧ is_zst .Felt252 = .ok false ∧
    layout .Felt252 = .ok ⟨32, 32⟩ ∧ (false = true ↔ (Layout.mk 32 32).size = 0) :=
  ⟨by decide, by decide, by decide,
    C3_zst_iff_layout_size_zero .Felt252 false ⟨32, 32⟩ (by decide) (by decide) (by decide)⟩

/-- Claim C4: every layout the classifier returns is `pad_to_align`-normalized:
it is a fixed point of `pad_to_align`, hence its size is a multiple of its
alignment. -/
theorem C4_layout_normalized (t : CoreType) (l : Layout) (h : layout t = .ok l) :
    l.pad_to_align = l ∧ l.align ∣ l.size := by
  refine ⟨layout_padded t l h, ?_⟩
  unfold layout at h
  obtain ⟨y, hy, he⟩ := map_ok h
  subst he
  exact dvd_mul_left y.align ((y.size + y.align - 1) / y.align)

/-- Witness for C4 at the concrete type `Felt252`. -/
theorem C4_witness :
    layout .Felt252 = .ok ⟨32, 32⟩ ∧
    ((Layout.mk 32 32).pad_to_align = ⟨32, 32⟩ ∧ (32 : Nat) ∣ (32 : Nat)) :=
  ⟨by decide, C4_layout_normalized .Felt252 ⟨32, 32⟩ (by decide)⟩

/-- Claim C5: for an enum with `k ≥ 1` variants whose variant layouts succeed,
the tag layout is the integer layout of `⌈log₂ (max 1 (next_power_of_two k))⌉`
bits, and the overall layout is the `pad_to_align` of the component-wise
maximum (of sizes and of alignments) of `tag.extend(variant_i_layout)` over
all variants. -/
theorem C5_enum_layout (v : CoreType) (rest : CoreTypeList) (l0 : Layout)
    (ls : List Layout) (h0 : layout v = .ok l0) (hrest : mapLayouts rest = .ok ls) :
    layout (.Enum (.cons v rest)) =
      .ok (Layout.pad_to_align (List.foldl layoutMax
        ((get_integer_layout
          (specEnumTagBits (CoreTypeList.length (.cons v rest)))).extend l0).1
        (ls.map (fun l =>
          ((get_integer_layout
            (specEnumTagBits (CoreTypeList.length (.cons v rest)))).extend l).1)))) := by
  rw [specEnumTagBits_eq]
  unfold layout
  simp only [layoutM]
  have hm : mapLayouts (.cons v rest) = .ok (l0 :: ls) := by
    simp only [mapLayouts, h0, ok_bind, hrest]
    rfl
  rw [enumFold_eq_foldl (.cons v rest) (l0 :: ls) _ _ hm]
  simp only [List.map_cons, List.foldl_cons]
  rw [layoutMax_tag_extend _ l0 (layout_align_pos v l0 h0)]
  rfl

/-- Witness for C5 at the concrete enum of a `Felt252` and a `Uint8` variant. -/
theorem C5_witness :
    layout .Felt252 = .ok ⟨32, 32⟩ ∧
    mapLayouts (.cons .Uint8 .nil) = .ok [⟨1, 1⟩] ∧
    layout (.Enum (.cons .Felt252 (.cons .Uint8 .nil))) =
      .ok (Layout.pad_to_align (List.foldl layoutMax
        ((get_integer_layout
          (specEnumTagBits
            (CoreTypeList.length (.cons .Felt252 (.cons .Uint8 .nil))))).extend ⟨32, 32⟩).1
        ([(⟨1, 1⟩ : Layout)].map (fun l =>
          ((get_integer_layout
            (specEnumTagBits
              (CoreTypeList.length (.cons .Felt252 (.cons .Uint8 .nil))))).extend l).1)))) :=
  ⟨by decide, by decide,
    C5_enum_layout .Felt252 (.cons .Uint8 .nil) ⟨32, 32⟩ [⟨1, 1⟩] (by decide) (by decide)⟩

/-- Claim C6: for a `BoundedInt` with range `r`, `is_complex` is true on
x86-64 exactly when `offset_bit_width(r) > 128`, is false on AArch64, and in
particular a range spanning exactly 129 bits is complex on x86-64 and not on
AArch64. -/
theorem C6_bounded_int_complex (lower upper : Int) :
    is_complex .x86_64 (.BoundedInt lower upper) =
      .ok (decide ((Range.mk lower upper).offset_bit_width > 128)) ∧
    is_complex .aarch64 (.BoundedInt lower upper) = .ok false ∧
    ((Range.mk lower upper).offset_bit_width = 129 →
      is_complex .x86_64 (.BoundedInt lower upper) = .ok true ∧
      is_complex .aarch64 (.BoundedInt lower upper) = .ok false) := by
  refine ⟨rfl, rfl, fun h => ⟨?_, rfl⟩⟩
  have hgt : (Range.mk lower upper).offset_bit_width > 128 := by omega
  exact congrArg Except.ok (decide_eq_true hgt)

/-- Witness for C6 on the 129-bit range `[0, 2^128)`. -/
theorem C6_witness :
    (Range.mk 0 (2 ^ 128)).offset_bit_width = 129 ∧
    is_complex .x86_64 (.BoundedInt 0 (2 ^ 128)) = .ok true ∧
    is_complex .aarch64 (.BoundedInt 0 (2 ^ 128)) = .ok false :=
  ⟨by decide, (C6_bounded_int_complex 0 (2 ^ 128)).2.2 (by decide)⟩

/-- Claim C7: `integer_range` succeeds exactly on the numeric families
(`Uint8..Uint128`, `Sint8..Sint128`), `Felt252`, `Bytes31`, `BoundedInt`,
and, by delegation to the inner type, `Const` and `NonZero`; on every other
family it fails with `IntegerLikeTypeExpected`. -/
theorem C7_integer_range_domain (t : CoreType) :
    ((∃ r, integer_range t = .ok r) ↔ specIntegerFamily t = true) ∧
    (specIntegerFamily t = false → integer_range t = .error .IntegerLikeTypeExpected) :=
  integer_range_domain t

/-- Witness for C7: `Uint8` is in the domain, `GasBuiltin` is not and produces
the `IntegerLikeTypeExpected` error. -/
theorem C7_witness :
    specIntegerFamily .Uint8 = true ∧ specIntegerFamily .GasBuiltin = false ∧
    (∃ r, integer_range .Uint8 = .ok r) ∧
    integer_range .GasBuiltin = .error .IntegerLikeTypeExpected :=
  ⟨by decide, by decide, (C7_integer_range_domain .Uint8).1.mpr (by decide),
    (C7_integer_range_domain .GasBuiltin).2 (by decide)⟩

/-- Claim C8: the value ranges are `[MIN, MAX + 1)` for each machine integer
family, `[0, P)` with `P = 2²⁵¹ + 17·2¹⁹² + 1` for `Felt252`, and
`[0, 2²⁴⁸)` for `Bytes31`. -/
theorem C8_integer_range_values :
    integer_range .Uint8 = .ok ⟨0, 255 + 1⟩ ∧
    integer_range .Uint16 = .ok ⟨0, 65535 + 1⟩ ∧
    integer_range .Uint32 = .ok ⟨0, 4294967295 + 1⟩ ∧
    integer_range .Uint64 = .ok ⟨0, 18446744073709551615 + 1⟩ ∧
    integer_range .Uint128 = .ok ⟨0, (2 ^ 128 - 1) + 1⟩ ∧
    integer_range .Sint8 = .ok ⟨-128, 127 + 1⟩ ∧
    integer_range .Sint16 = .ok ⟨-32768, 32767 + 1⟩ ∧
    integer_range .Sint32 = .ok ⟨-2147483648, 2147483647 + 1⟩ ∧
    integer_range .Sint64 = .ok ⟨-9223372036854775808, 9223372036854775807 + 1⟩ ∧
    integer_range .Sint128 = .ok ⟨-(2 ^ 127), (2 ^ 127 - 1) + 1⟩ ∧
    integer_range .Felt252 = .ok ⟨0, ((2 ^ 251 + 17 * 2 ^ 192 + 1 : Nat) : Int)⟩ ∧
    integer_range .Bytes31 = .ok ⟨0, 2 ^ 248⟩ := by
  decide

/-- Claim C9: on 64-bit targets the layout of every `Array` type is
`(size 24, align 8)`: an 8-byte pointer extended with three 4-byte `i32`
fields and padded to 8-byte alignment. -/
theorem C9_array_layout (t : CoreType) : layout (.Array t) = .ok ⟨24, 8⟩ := rfl

/-- Claim C10, counterexample: the claim says a ZST enum is never complex, but
the single-variant enum whose variant is the empty struct is a ZST and is
complex (its `is_complex` delegates to the variant, and structs are always
complex). -/
theorem C10_counterexample :
    is_zst (.Enum (.cons (.Struct .nil) .nil)) = .ok true ∧
    is_complex .x86_64 (.Enum (.cons (.Struct .nil) .nil)) = .ok true ∧
    is_complex .aarch64 (.Enum (.cons (.Struct .nil) .nil)) = .ok true := by
  decide

/-- Claim C10 (amended): `is_complex` is unconditionally true for every
struct, including the empty struct and all-ZST structs which `is_zst`
classifies as ZST; the contrast with enums holds only for enums with zero or
at least two variants: such a ZST enum is not complex, while a single-variant
ZST enum delegates and can be complex. -/
theorem C10_struct_always_complex (arch : Arch) (ms vs : CoreTypeList) :
    is_complex arch (.Struct ms) = .ok true ∧
    is_zst (.Struct .nil) = .ok true ∧
    ((∀ m, CoreTypeList.Mem m ms → is_zst m = .ok true) →
      is_zst (.Struct ms) = .ok true) ∧
    (vs.length ≠ 1 → is_zst (.Enum vs) = .ok true →
      is_complex arch (.Enum vs) = .ok false) := by
  refine ⟨rfl, rfl, fun H => allZst_of_mem ms H, fun hk hz => ?_⟩
  match vs with
  | .nil => rfl
  | .cons v .nil => exact absurd rfl hk
  | .cons a (.cons b rest) => cases hz

/-- Witness for C10: a one-member ZST struct is complex and ZST; the
zero-variant enum is ZST and not complex. -/
theorem C10_witness :
    is_complex .x86_64 (.Struct (.cons .Uint128MulGuarantee .nil)) = .ok true ∧
    is_zst (.Struct (.cons .Uint128MulGuarantee .nil)) = .ok true ∧
    is_complex .x86_64 (.Enum .nil) = .ok false :=
  have h := C10_struct_always_complex .x86_64 (.cons .Uint128MulGuarantee .nil) .nil
  ⟨h.1,
    h.2.2.1 (fun m hm => hm.elim (fun he => by subst he; rfl) (fun h2 => by cases h2)),
    h.2.2.2 (by decide) (by decide)⟩

end CairoNative
